import Mathlib

/-!
# Verification of `src/fasta_script.py` (CSV → FASTA extractor)

Shallow embedding of the transformation function `create_fasta_from_csv`.

The source opens a CSV file with `csv.DictReader`, validates that the three
required column names appear in the header, opens the output file, and for
each row decides a match, builds the FASTA name, strips the sequence, and
writes the header line plus the sequence wrapped at 60 characters, counting
each written entry.

Modelling decisions:
* A row is the dict produced by `csv.DictReader`: an association list from
  column name to string value; `dict.get` is a first-match lookup.
* The source file is `Option Csv`: `none` models the `FileNotFoundError`
  path of lines 80-81 (the file cannot be opened), `some csv` the parsed
  reader with its `fieldnames` and row dicts.
* The output sink is a list of written lines (each `outfile.write` call at
  lines 66 and 70 writes one line terminated by a single `'\n'`); the byte
  content of the file is `fileContent`.  In the error branches (lines 42 and
  80-81) the output file is never opened, which the result type records by
  carrying no sink at all; `sinkState` extracts the sink, `none` meaning the
  output file was never opened.
* Python strings are indexed by code points, so the payload sliced at
  line 69-70 is modelled as `List Char`; `str.strip()` is `pyStrip`
  (drop whitespace from both ends of the code-point list).
* In the f-string of line 61 a `None` identifier prints as `"None"`
  (`pyFormat`).
-/

namespace FastaScript

/-- Line 19 of the source: `ID_COLUMN = 'SEQ_ID'`. -/
def ID_COLUMN : String := "SEQ_ID"

/-- Line 20 of the source: `NAME_COLUMN = 'SHORT_NAME'`. -/
def NAME_COLUMN : String := "SHORT_NAME"

/-- Line 21 of the source: `SEQUENCE_COLUMN = 'PROTEIN_SEQUENCE'`. -/
def SEQUENCE_COLUMN : String := "PROTEIN_SEQUENCE"

/-- Line 37: `required_headers = [ID_COLUMN, NAME_COLUMN, SEQUENCE_COLUMN]`. -/
def required_headers : List String := [ID_COLUMN, NAME_COLUMN, SEQUENCE_COLUMN]

/-- One CSV row as produced by `csv.DictReader`: a dict from column name to
string value, modelled as an association list (first binding wins). -/
abbrev Row := List (String × String)

/-- Python `row.get(col)`: the value bound to `col`, or `None`. -/
def Row.get (row : Row) (col : String) : Option String :=
  (List.find? (fun cell => cell.1 == col) row).map (fun cell => cell.2)

/-- Python `row.get(col, d)`: the value bound to `col`, or the default `d`. -/
def Row.getD (row : Row) (col : String) (d : String) : String :=
  (Row.get row col).getD d

/-- Python `str.strip()` (line 58): remove leading and trailing whitespace;
the result is kept as the code-point list the slicing of lines 69-70
operates on. -/
def pyStrip (s : String) : List Char :=
  ((s.data.dropWhile Char.isWhitespace).reverse.dropWhile Char.isWhitespace).reverse

/-- Formatting an optional string inside a Python f-string (line 61):
`None` prints as the four characters `None`. -/
def pyFormat : Option String → String
  | none => "None"
  | some s => s

/-- Truthiness of `seq_id and seq_id in target_ids` (second disjunct of
line 53): `None` and the empty string are falsy, otherwise membership in
`target_ids` decides. -/
def seqIdSelected (target_ids : List String) : Option String → Bool
  | none => false
  | some s => (!(s == "")) && target_ids.contains s

/-- Line 53: `is_match = extract_all_flag or (seq_id and seq_id in target_ids)`. -/
def is_match (extract_all_flag : Bool) (target_ids : List String)
    (seq_id : Option String) : Bool :=
  extract_all_flag || seqIdSelected target_ids seq_id

/-- Lines 69-70: `for i in range(0, len(protein_sequence), 60):
outfile.write(protein_sequence[i:i+60] + '\n')`.  The Python range with step
60 visits `⌈len/60⌉` indices `0, 60, 120, …`, and the slice `s[i:i+60]` is
`(s.drop i).take 60`. -/
def wrapLines (protein_sequence : List Char) : List (List Char) :=
  (List.range' 0 ((protein_sequence.length + 59) / 60) 60).map
    (fun i => (protein_sequence.drop i).take 60)

/-- Lines 50-64 for one row: the data the loop body extracts before writing.
Returns `some (fasta_name, protein_sequence)` when the row is written
(match and non-empty stripped sequence, lines 55 and 64), else `none`. -/
def processRow (extract_all_flag : Bool) (target_ids : List String)
    (row : Row) : Option (String × List Char) :=
  let seq_id := Row.get row ID_COLUMN
  if is_match extract_all_flag target_ids seq_id then
    let short_name := Row.getD row NAME_COLUMN "N/A"
    let protein_sequence := pyStrip (Row.getD row SEQUENCE_COLUMN "")
    let fasta_name := pyFormat seq_id ++ "_" ++ short_name
    if protein_sequence.isEmpty then none
    else some (fasta_name, protein_sequence)
  else none

/-- Lines 66-70 for one row: the lines this row contributes to the output
file — nothing when the row is skipped, else the header line
`'>' + fasta_name` followed by the 60-character wrapped sequence lines. -/
def rowOutput (extract_all_flag : Bool) (target_ids : List String)
    (row : Row) : List String :=
  match processRow extract_all_flag target_ids row with
  | none => []
  | some (fasta_name, protein_sequence) =>
      (">" ++ fasta_name) :: (wrapLines protein_sequence).map String.mk

/-- The parsed CSV source as seen through `csv.DictReader` (line 34):
its header `fieldnames` and its row dicts. -/
structure Csv where
  fieldnames : List String
  rows : List Row

/-- The structured outcome of a run of `create_fasta_from_csv`:
success with the entry count and the lines written to the output file,
or one of the error exits (lines 38-42 and 80-81), on which the output
file is never opened. -/
inductive FastaResult where
  | success (extracted_count : Nat) (written : List String)
  | missingColumns (expected found : List String)
  | sourceNotFound
deriving DecidableEq, Repr

/-- The state of the output sink after a run: `none` when the output file
was never opened (no file created, zero bytes written), `some ls` when it
was opened (truncated) and the lines `ls` were written. -/
def sinkState : FastaResult → Option (List String)
  | FastaResult.success _ written => some written
  | FastaResult.missingColumns _ _ => none
  | FastaResult.sourceNotFound => none

/-- The byte content of the output file: every written line is terminated
by one line terminator. -/
def fileContent (written : List String) : String :=
  String.join (written.map (fun l => l ++ "\n"))

/-- The body of the loop of lines 49-74 as a fold step: the running
`extracted_count` and the lines written so far, updated by one row —
unchanged for a skipped row, else one header line and the wrapped sequence
lines are appended and the count goes up by one (line 72). -/
def loopStep (extract_all_flag : Bool) (target_ids : List String)
    (acc : Nat × List String) (row : Row) : Nat × List String :=
  match processRow extract_all_flag target_ids row with
  | none => acc
  | some (fasta_name, protein_sequence) =>
      (acc.1 + 1,
       acc.2 ++ (">" ++ fasta_name) ::
         (wrapLines protein_sequence).map String.mk)

/-- `create_fasta_from_csv` (lines 5-83 of the source).  `source = none` is
the `FileNotFoundError` path (lines 80-81).  Otherwise the header check of
line 38 (`all(header in reader.fieldnames for header in required_headers)`)
either fails with the `MissingColumns` report of lines 39-42 — before the
output file is opened — or the loop of lines 49-74 runs, accumulating
`extracted_count` and the written lines. -/
def create_fasta_from_csv (source : Option Csv) (target_ids : List String)
    (extract_all_flag : Bool) : FastaResult :=
  match source with
  | none => FastaResult.sourceNotFound
  | some csv =>
    if required_headers.all (fun header => csv.fieldnames.contains header) then
      let r := csv.rows.foldl (loopStep extract_all_flag target_ids) (0, [])
      FastaResult.success r.1 r.2
    else FastaResult.missingColumns required_headers csv.fieldnames

/-! ## Structural lemmas about the embedding -/

theorem wrapLines_nil : wrapLines [] = [] := rfl

/-- Ceiling-division step: for `n ≠ 0`, `⌈n/60⌉ = ⌈(n-60)/60⌉ + 1`. -/
theorem ceil60_succ {n : ℕ} (h : n ≠ 0) :
    (n + 59) / 60 = (n - 60 + 59) / 60 + 1 := by
  rcases Nat.lt_or_ge n 61 with h1 | h1
  · have h0 : n - 60 = 0 := by omega
    rw [h0]
    have hone : (n + 59) / 60 = 1 := Nat.div_eq_of_lt_le (by omega) (by omega)
    simp [hone]
  · have hsplit : n + 59 = (n - 60 + 59) + 60 := by omega
    rw [hsplit, Nat.add_div_right _ (by norm_num)]

/-- The Python loop `for i in range(0, len, 60)` peels off the first 60
characters and recurses on the rest. -/
theorem wrapLines_cons {p : List Char} (h : p ≠ []) :
    wrapLines p = p.take 60 :: wrapLines (p.drop 60) := by
  have hn : p.length ≠ 0 := by simpa using h
  unfold wrapLines
  rw [List.length_drop, ceil60_succ hn, List.range'_succ, List.map_cons,
    List.drop_zero]
  congr 1
  have hshift : List.range' (0 + 60) ((p.length - 60 + 59) / 60) 60 =
      (List.range' 0 ((p.length - 60 + 59) / 60) 60).map (fun i => 60 + i) := by
    rw [List.map_add_range']
  rw [hshift, List.map_map]
  apply List.map_congr_left
  intro i _
  simp only [Function.comp_apply, List.drop_drop]

/-- Concatenating the 60-character chunks gives back the whole payload. -/
theorem wrapLines_flatten (p : List Char) : (wrapLines p).flatten = p := by
  by_cases h : p = []
  · subst h; rfl
  · rw [wrapLines_cons h, List.flatten_cons, wrapLines_flatten (p.drop 60),
      List.take_append_drop]
termination_by p.length
decreasing_by
  simp only [List.length_drop]
  have := List.length_pos.mpr h
  omega

theorem wrapLines_length (p : List Char) :
    (wrapLines p).length = (p.length + 59) / 60 := by
  simp [wrapLines]

theorem wrapLines_ne_nil {p : List Char} (h : p ≠ []) : wrapLines p ≠ [] := by
  rw [wrapLines_cons h]
  exact List.cons_ne_nil _ _

/-- Every chunk except the last has exactly 60 characters; the last has
between 1 and 60 (so no empty trailing line is ever produced). -/
theorem wrapLines_chunk_sizes (p : List Char) :
    (∀ c ∈ (wrapLines p).dropLast, c.length = 60) ∧
    (∀ c, (wrapLines p).getLast? = some c → 0 < c.length ∧ c.length ≤ 60) := by
  by_cases h : p = []
  · subst h
    rw [wrapLines_nil]
    exact ⟨by intro c hc; simp at hc, by intro c hc; simp at hc⟩
  · have hlen := List.length_pos.mpr h
    rw [wrapLines_cons h]
    by_cases h2 : p.drop 60 = []
    · have hle : p.length ≤ 60 := by
        have := congrArg List.length h2
        simp only [List.length_drop, List.length_nil] at this
        omega
      rw [h2, wrapLines_nil]
      constructor
      · intro c hc; simp at hc
      · intro c hc
        simp only [List.getLast?_singleton, Option.some.injEq] at hc
        subst hc
        simp only [List.length_take]
        omega
    · have hgt : 60 < p.length := by
        have hd : p.length - 60 ≠ 0 := by
          intro h0
          apply h2
          apply List.eq_nil_of_length_eq_zero
          simpa [List.length_drop] using h0
        omega
      have IH := wrapLines_chunk_sizes (p.drop 60)
      have hw : wrapLines (p.drop 60) ≠ [] := wrapLines_ne_nil h2
      constructor
      · intro c hc
        rw [List.dropLast_cons_of_ne_nil hw] at hc
        rcases List.mem_cons.mp hc with hc | hc
        · subst hc
          simp only [List.length_take]
          omega
        · exact IH.1 c hc
      · intro c hc
        obtain ⟨b, t, hbt⟩ := List.exists_cons_of_ne_nil hw
        rw [hbt, List.getLast?_cons_cons, ← hbt] at hc
        exact IH.2 c hc
termination_by p.length
decreasing_by
  simp only [List.length_drop]
  omega

/-- When `processRow` emits an entry, the row matched, the FASTA name is the
underscore join of line 61, the payload is the stripped sequence field, and
the payload is non-empty. -/
theorem processRow_eq_some {extract_all_flag : Bool} {target_ids : List String}
    {row : Row} {fasta_name : String} {protein_sequence : List Char}
    (h : processRow extract_all_flag target_ids row =
      some (fasta_name, protein_sequence)) :
    is_match extract_all_flag target_ids (Row.get row ID_COLUMN) = true ∧
    fasta_name =
      pyFormat (Row.get row ID_COLUMN) ++ "_" ++ Row.getD row NAME_COLUMN "N/A" ∧
    protein_sequence = pyStrip (Row.getD row SEQUENCE_COLUMN "") ∧
    protein_sequence ≠ [] := by
  simp only [processRow] at h
  by_cases hm : is_match extract_all_flag target_ids (Row.get row ID_COLUMN)
  · rw [if_pos hm] at h
    by_cases he : (pyStrip (Row.getD row SEQUENCE_COLUMN "")).isEmpty
    · rw [if_pos he] at h
      exact absurd h (by simp)
    · rw [if_neg he] at h
      obtain ⟨h1, h2⟩ := Prod.mk.injEq .. ▸ Option.some.inj h
      refine ⟨hm, h1.symm, h2.symm, ?_⟩
      rw [h2] at he
      simpa using he
  · rw [if_neg hm] at h
    exact absurd h (by simp)

/-- A row is emitted exactly when it matches and its stripped sequence is
non-empty. -/
theorem processRow_isSome (extract_all_flag : Bool) (target_ids : List String)
    (row : Row) :
    (processRow extract_all_flag target_ids row).isSome =
      (is_match extract_all_flag target_ids (Row.get row ID_COLUMN) &&
       !(pyStrip (Row.getD row SEQUENCE_COLUMN "")).isEmpty) := by
  simp only [processRow]
  by_cases hm : is_match extract_all_flag target_ids (Row.get row ID_COLUMN) <;>
    by_cases he : (pyStrip (Row.getD row SEQUENCE_COLUMN "")).isEmpty <;>
    simp [hm, he]

theorem rowOutput_eq_nil {extract_all_flag : Bool} {target_ids : List String}
    {row : Row} (h : processRow extract_all_flag target_ids row = none) :
    rowOutput extract_all_flag target_ids row = [] := by
  simp [rowOutput, h]

theorem rowOutput_eq_cons {extract_all_flag : Bool} {target_ids : List String}
    {row : Row} {fasta_name : String} {protein_sequence : List Char}
    (h : processRow extract_all_flag target_ids row =
      some (fasta_name, protein_sequence)) :
    rowOutput extract_all_flag target_ids row =
      (">" ++ fasta_name) :: (wrapLines protein_sequence).map String.mk := by
  simp [rowOutput, h]

/-- The loop of lines 49-74: the final accumulator adds one count per
emitted row and appends each emitted row's lines in source row order. -/
theorem foldl_loopStep (extract_all_flag : Bool) (target_ids : List String)
    (rows : List Row) :
    ∀ (c : Nat) (ls : List String),
      rows.foldl (loopStep extract_all_flag target_ids) (c, ls) =
        (c + rows.countP
            (fun row => (processRow extract_all_flag target_ids row).isSome),
         ls ++ rows.flatMap (rowOutput extract_all_flag target_ids)) := by
  induction rows with
  | nil => intro c ls; simp
  | cons r rs ih =>
    intro c ls
    rw [List.foldl_cons]
    rcases hr : processRow extract_all_flag target_ids r with _ | ⟨fasta_name, protein_sequence⟩
    · rw [show loopStep extract_all_flag target_ids (c, ls) r = (c, ls) from by
        simp [loopStep, hr]]
      rw [ih]
      simp [List.countP_cons, hr, rowOutput_eq_nil hr]
    · rw [show loopStep extract_all_flag target_ids (c, ls) r =
          (c + 1, ls ++ (">" ++ fasta_name) ::
            (wrapLines protein_sequence).map String.mk) from by
        simp [loopStep, hr]]
      rw [ih]
      refine Prod.ext ?_ ?_
      · simp [List.countP_cons, hr]
        omega
      · simp [List.flatMap_cons, rowOutput_eq_cons hr]

/-- A run over a source whose header passes the check of line 38 succeeds,
counting exactly the emitted rows and writing their lines in source row
order. -/
theorem create_fasta_success (csv : Csv) (target_ids : List String)
    (extract_all_flag : Bool)
    (h : required_headers.all
      (fun header => csv.fieldnames.contains header) = true) :
    create_fasta_from_csv (some csv) target_ids extract_all_flag =
      FastaResult.success
        (csv.rows.countP
          (fun row => (processRow extract_all_flag target_ids row).isSome))
        (csv.rows.flatMap (rowOutput extract_all_flag target_ids)) := by
  unfold create_fasta_from_csv
  simp only [h, if_true]
  simp [foldl_loopStep]

/-! ## Concrete example data used to instantiate the theorems -/

def exampleFieldnames : List String :=
  ["SEQ_ID", "SHORT_NAME", "PROTEIN_SEQUENCE"]

def rowX1alpha : Row :=
  [("SEQ_ID", "X1"), ("SHORT_NAME", "alpha"), ("PROTEIN_SEQUENCE", "MKV")]

def rowX2beta : Row :=
  [("SEQ_ID", "X2"), ("SHORT_NAME", "beta"), ("PROTEIN_SEQUENCE", "GG")]

def rowX1gamma : Row :=
  [("SEQ_ID", "X1"), ("SHORT_NAME", "gamma"), ("PROTEIN_SEQUENCE", "AA")]

def rowNoSeq : Row :=
  [("SEQ_ID", "X3"), ("SHORT_NAME", "delta")]

def rowNoName : Row :=
  [("SEQ_ID", "X4"), ("PROTEIN_SEQUENCE", "WW")]

def rowEmptyId : Row :=
  [("SEQ_ID", ""), ("SHORT_NAME", "eps"), ("PROTEIN_SEQUENCE", "QQ")]

/-! ## Claims -/

/-- C1: for every source whose header contains the three required columns
(in any order, possibly with extra columns) and every selection criterion,
the run succeeds and the entry count equals the number of rows for which
the match condition holds and the stripped sequence payload is non-empty;
matching rows with an empty stripped payload are skipped silently and not
counted. -/
theorem extraction_count_correct (csv : Csv) (target_ids : List String)
    (extract_all_flag : Bool)
    (h : required_headers.all
      (fun header => csv.fieldnames.contains header) = true) :
    ∃ written,
      create_fasta_from_csv (some csv) target_ids extract_all_flag =
        FastaResult.success
          (csv.rows.countP (fun row =>
            is_match extract_all_flag target_ids (Row.get row ID_COLUMN) &&
            !(pyStrip (Row.getD row SEQUENCE_COLUMN "")).isEmpty))
          written := by
  refine ⟨csv.rows.flatMap (rowOutput extract_all_flag target_ids), ?_⟩
  rw [create_fasta_success csv target_ids extract_all_flag h]
  have hp : (fun row => (processRow extract_all_flag target_ids row).isSome) =
      (fun row =>
        is_match extract_all_flag target_ids (Row.get row ID_COLUMN) &&
        !(pyStrip (Row.getD row SEQUENCE_COLUMN "")).isEmpty) :=
    funext (fun row => processRow_isSome extract_all_flag target_ids row)
  rw [hp]

theorem extraction_count_correct_witness :
    required_headers.all
      (fun header => exampleFieldnames.contains header) = true ∧
    ∃ written,
      create_fasta_from_csv
          (some ⟨exampleFieldnames, [rowX1alpha, rowX2beta]⟩) ["X1"] false =
        FastaResult.success
          (([rowX1alpha, rowX2beta] : List Row).countP (fun row =>
            is_match false ["X1"] (Row.get row ID_COLUMN) &&
            !(pyStrip (Row.getD row SEQUENCE_COLUMN "")).isEmpty))
          written :=
  ⟨by decide,
    extraction_count_correct ⟨exampleFieldnames, [rowX1alpha, rowX2beta]⟩
      ["X1"] false (by decide)⟩

/-- C2: for every source whose header is missing at least one of the three
required column names, the run stops before processing any row with a
`MissingColumns` error carrying the expected and the found headers, and the
output sink is never opened (no file created, zero bytes written). -/
theorem missing_columns_stops_run (csv : Csv) (target_ids : List String)
    (extract_all_flag : Bool)
    (h : ∃ header ∈ required_headers, header ∉ csv.fieldnames) :
    create_fasta_from_csv (some csv) target_ids extract_all_flag =
      FastaResult.missingColumns required_headers csv.fieldnames ∧
    sinkState (create_fasta_from_csv (some csv) target_ids extract_all_flag) =
      none := by
  have hall : required_headers.all
      (fun header => csv.fieldnames.contains header) = false := by
    rw [List.all_eq_false]
    obtain ⟨header, hmem, hno⟩ := h
    exact ⟨header, hmem, by simpa using hno⟩
  have hcond : ¬ (required_headers.all
      (fun header => csv.fieldnames.contains header) = true) := by
    simp only [hall]
    exact Bool.false_ne_true
  have hres : create_fasta_from_csv (some csv) target_ids extract_all_flag =
      FastaResult.missingColumns required_headers csv.fieldnames := by
    simp only [create_fasta_from_csv]
    rw [if_neg hcond]
  exact ⟨hres, by rw [hres]; rfl⟩

theorem missing_columns_stops_run_witness :
    create_fasta_from_csv
        (some ⟨["SEQ_ID", "SHORT_NAME"], [rowX1alpha]⟩) [] true =
      FastaResult.missingColumns required_headers ["SEQ_ID", "SHORT_NAME"] ∧
    sinkState (create_fasta_from_csv
        (some ⟨["SEQ_ID", "SHORT_NAME"], [rowX1alpha]⟩) [] true) = none :=
  missing_columns_stops_run ⟨["SEQ_ID", "SHORT_NAME"], [rowX1alpha]⟩ [] true
    (by decide)

/-- C3: for every emitted entry with payload of length `n > 0`, the lines
written after the header line are exactly the 60-character chunks of the
payload, `⌈n/60⌉` of them, all of length 60 except a possibly shorter
non-empty final line (so never a trailing empty line); in particular a
61-character payload yields lines of lengths 60 and 1, and a 120-character
payload exactly two 60-character lines. -/
theorem wrapped_lines_shape (extract_all_flag : Bool)
    (target_ids : List String) (row : Row) (fasta_name : String)
    (protein_sequence : List Char)
    (h : processRow extract_all_flag target_ids row =
      some (fasta_name, protein_sequence)) :
    rowOutput extract_all_flag target_ids row =
      (">" ++ fasta_name) :: (wrapLines protein_sequence).map String.mk ∧
    0 < protein_sequence.length ∧
    (wrapLines protein_sequence).length = (protein_sequence.length + 59) / 60 ∧
    (∀ c ∈ (wrapLines protein_sequence).dropLast, c.length = 60) ∧
    (∀ c, (wrapLines protein_sequence).getLast? = some c →
      0 < c.length ∧ c.length ≤ 60) ∧
    wrapLines (List.replicate 61 'A') = [List.replicate 60 'A', ['A']] ∧
    (wrapLines (List.replicate 120 'A')).map List.length = [60, 60] := by
  obtain ⟨-, -, -, hne⟩ := processRow_eq_some h
  exact ⟨rowOutput_eq_cons h, List.length_pos.mpr hne, wrapLines_length _,
    (wrapLines_chunk_sizes _).1, (wrapLines_chunk_sizes _).2,
    by decide, by decide⟩

theorem wrapped_lines_shape_witness :
    rowOutput false ["X1"] rowX1alpha =
      (">" ++ "X1_alpha") :: (wrapLines ['M', 'K', 'V']).map String.mk :=
  (wrapped_lines_shape false ["X1"] rowX1alpha "X1_alpha" ['M', 'K', 'V']
    (by decide)).1

/-- C4: a row matches exactly when the criterion is match-all, or the
criterion is match-by-identifier-set and the row's identifier is non-empty
and a member of the set; a non-matching row produces no output, no count
increment, and no error. -/
theorem match_condition_correct (extract_all_flag : Bool)
    (target_ids : List String) (row : Row) :
    (is_match extract_all_flag target_ids (Row.get row ID_COLUMN) = true ↔
      extract_all_flag = true ∨
        ∃ s, Row.get row ID_COLUMN = some s ∧ s ≠ "" ∧ s ∈ target_ids) ∧
    (is_match extract_all_flag target_ids (Row.get row ID_COLUMN) = false →
      processRow extract_all_flag target_ids row = none ∧
      rowOutput extract_all_flag target_ids row = []) := by
  constructor
  · rcases hid : Row.get row ID_COLUMN with _ | s
    · simp [is_match, seqIdSelected]
    · simp [is_match, seqIdSelected]
  · intro hnm
    have hnone : processRow extract_all_flag target_ids row = none := by
      simp only [processRow, hnm]
      simp
    exact ⟨hnone, rowOutput_eq_nil hnone⟩

theorem match_condition_correct_witness :
    processRow false ["X1"] rowX2beta = none ∧
    rowOutput false ["X1"] rowX2beta = [] :=
  (match_condition_correct false ["X1"] rowX2beta).2 (by decide)

/-- C5: round-trip — for every emitted entry, concatenating its sequence
lines in order (the chunks of `wrapLines`) reconstructs the stripped
payload of the row exactly. -/
theorem roundtrip_payload (extract_all_flag : Bool)
    (target_ids : List String) (row : Row) (fasta_name : String)
    (protein_sequence : List Char)
    (h : processRow extract_all_flag target_ids row =
      some (fasta_name, protein_sequence)) :
    protein_sequence = pyStrip (Row.getD row SEQUENCE_COLUMN "") ∧
    (wrapLines protein_sequence).flatten = protein_sequence :=
  ⟨(processRow_eq_some h).2.2.1, wrapLines_flatten _⟩

theorem roundtrip_payload_witness :
    ['M', 'K', 'V'] = pyStrip (Row.getD rowX1alpha SEQUENCE_COLUMN "") ∧
    (wrapLines ['M', 'K', 'V']).flatten = ['M', 'K', 'V'] :=
  roundtrip_payload false ["X1"] rowX1alpha "X1_alpha" ['M', 'K', 'V']
    (by decide)

/-- C6: with criterion match-by-identifier-set `{"X1"}` and rows whose
identifiers are `X1`, `X2`, `X1` (all with non-empty payloads), exactly the
two `X1` rows are written, in source row order; in general the output is
the concatenation, in source row order, of each matching record's lines, so
repeated identifiers are not deduplicated. -/
theorem id_set_selection_order :
    (∀ (csv : Csv) (target_ids : List String) (extract_all_flag : Bool),
      required_headers.all
        (fun header => csv.fieldnames.contains header) = true →
      create_fasta_from_csv (some csv) target_ids extract_all_flag =
        FastaResult.success
          (csv.rows.countP
            (fun row => (processRow extract_all_flag target_ids row).isSome))
          (csv.rows.flatMap (rowOutput extract_all_flag target_ids))) ∧
    create_fasta_from_csv
        (some ⟨exampleFieldnames, [rowX1alpha, rowX2beta, rowX1gamma]⟩)
        ["X1"] false =
      FastaResult.success 2
        ([">X1_alpha", "MKV"] ++ [">X1_gamma", "AA"]) :=
  ⟨create_fasta_success, by decide⟩

theorem id_set_selection_order_witness :
    create_fasta_from_csv (some ⟨exampleFieldnames, [rowX2beta]⟩)
        ["X2"] false =
      FastaResult.success
        (([rowX2beta] : List Row).countP
          (fun row => (processRow false ["X2"] row).isSome))
        (([rowX2beta] : List Row).flatMap (rowOutput false ["X2"])) :=
  id_set_selection_order.1 ⟨exampleFieldnames, [rowX2beta]⟩ ["X2"] false
    (by decide)

/-- C7: for every emitted entry, the FASTA name is the identifier joined to
the display name by a literal underscore with no escaping, the display name
defaulting to the literal string `N/A` when the field is absent, and the
header line written is `>` followed by that name. -/
theorem short_name_default_header (extract_all_flag : Bool)
    (target_ids : List String) (row : Row) (fasta_name : String)
    (protein_sequence : List Char)
    (h : processRow extract_all_flag target_ids row =
      some (fasta_name, protein_sequence)) :
    (Row.get row NAME_COLUMN = none →
      Row.getD row NAME_COLUMN "N/A" = "N/A") ∧
    (∀ s, Row.get row ID_COLUMN = some s →
      fasta_name = s ++ "_" ++ Row.getD row NAME_COLUMN "N/A") ∧
    rowOutput extract_all_flag target_ids row =
      (">" ++ fasta_name) :: (wrapLines protein_sequence).map String.mk := by
  obtain ⟨-, hname, -, -⟩ := processRow_eq_some h
  refine ⟨?_, ?_, rowOutput_eq_cons h⟩
  · intro hnone
    simp [Row.getD, hnone]
  · intro s hs
    rw [hname, hs]
    rfl

theorem short_name_default_header_witness :
    rowOutput true [] rowNoName =
      (">" ++ "X4_N/A") :: (wrapLines ['W', 'W']).map String.mk := by
  have h := short_name_default_header true [] rowNoName "X4_N/A" ['W', 'W']
    (by decide)
  exact h.2.2

/-- C8: a matching row whose sequence-payload field is absent is treated as
having the empty payload, hence silently skipped — not counted, no error —
and the run over the remaining rows proceeds as if the row were not there. -/
theorem absent_sequence_skipped (extract_all_flag : Bool)
    (target_ids : List String) (row : Row)
    (h : Row.get row SEQUENCE_COLUMN = none) :
    processRow extract_all_flag target_ids row = none ∧
    ∀ (fieldnames : List String) (pre post : List Row),
      create_fasta_from_csv (some ⟨fieldnames, pre ++ row :: post⟩)
          target_ids extract_all_flag =
        create_fasta_from_csv (some ⟨fieldnames, pre ++ post⟩)
          target_ids extract_all_flag := by
  have hstrip : pyStrip (Row.getD row SEQUENCE_COLUMN "") = [] := by
    rw [Row.getD, h]
    rfl
  have hnone : processRow extract_all_flag target_ids row = none := by
    simp [processRow, hstrip]
  refine ⟨hnone, ?_⟩
  intro fieldnames pre post
  by_cases hall : required_headers.all
      (fun header => (fieldnames : List String).contains header) = true
  · rw [create_fasta_success ⟨fieldnames, pre ++ row :: post⟩ _ _ hall,
      create_fasta_success ⟨fieldnames, pre ++ post⟩ _ _ hall]
    have hcnt : (pre ++ row :: post).countP
        (fun r => (processRow extract_all_flag target_ids r).isSome) =
        (pre ++ post).countP
          (fun r => (processRow extract_all_flag target_ids r).isSome) := by
      simp [List.countP_append, List.countP_cons, hnone]
    have hout : (pre ++ row :: post).flatMap
        (rowOutput extract_all_flag target_ids) =
        (pre ++ post).flatMap (rowOutput extract_all_flag target_ids) := by
      simp [List.flatMap_append, rowOutput_eq_nil hnone]
    rw [hcnt, hout]
  · rw [Bool.not_eq_true] at hall
    have hcond : ¬ (required_headers.all
        (fun header => fieldnames.contains header) = true) := by
      simp only [hall]
      exact Bool.false_ne_true
    simp only [create_fasta_from_csv]
    rw [if_neg hcond, if_neg hcond]

theorem absent_sequence_skipped_witness :
    processRow true [] rowNoSeq = none ∧
    create_fasta_from_csv
        (some ⟨exampleFieldnames, [rowX1alpha, rowNoSeq]⟩) [] true =
      create_fasta_from_csv (some ⟨exampleFieldnames, [rowX1alpha]⟩) [] true := by
  have h := absent_sequence_skipped true [] rowNoSeq (by decide)
  exact ⟨h.1, h.2 exampleFieldnames [rowX1alpha] []⟩

/-- C9: when the source cannot be opened, the run returns `SourceNotFound`
and the output sink is never opened (no output side effects). -/
theorem source_not_found_no_output (target_ids : List String)
    (extract_all_flag : Bool) :
    create_fasta_from_csv none target_ids extract_all_flag =
      FastaResult.sourceNotFound ∧
    sinkState (create_fasta_from_csv none target_ids extract_all_flag) =
      none :=
  ⟨rfl, rfl⟩

/-- C10: under match-all, a row with an empty identifier field is still
emitted when its stripped payload is non-empty, and its header line is `>`
followed by the empty identifier joined by the underscore, i.e. it begins
`>_`; with a match-by-identifier-set criterion an empty identifier never
matches. -/
theorem empty_id_match_all_emitted (target_ids : List String) (row : Row)
    (hid : Row.get row ID_COLUMN = some "")
    (hp : pyStrip (Row.getD row SEQUENCE_COLUMN "") ≠ []) :
    processRow true target_ids row =
      some ("" ++ "_" ++ Row.getD row NAME_COLUMN "N/A",
        pyStrip (Row.getD row SEQUENCE_COLUMN "")) ∧
    rowOutput true target_ids row =
      (">" ++ ("" ++ "_" ++ Row.getD row NAME_COLUMN "N/A")) ::
        (wrapLines (pyStrip (Row.getD row SEQUENCE_COLUMN ""))).map
          String.mk ∧
    (">" ++ ("" ++ "_" ++ Row.getD row NAME_COLUMN "N/A")) =
      ">_" ++ Row.getD row NAME_COLUMN "N/A" ∧
    is_match false target_ids (some "") = false := by
  have hsome : processRow true target_ids row =
      some ("" ++ "_" ++ Row.getD row NAME_COLUMN "N/A",
        pyStrip (Row.getD row SEQUENCE_COLUMN "")) := by
    simp [processRow, hid, is_match, pyFormat, hp]
  refine ⟨hsome, rowOutput_eq_cons hsome, rfl, ?_⟩
  simp [is_match, seqIdSelected]

theorem empty_id_match_all_emitted_witness :
    rowOutput true [] rowEmptyId =
      (">" ++ ("" ++ "_" ++ Row.getD rowEmptyId NAME_COLUMN "N/A")) ::
        (wrapLines (pyStrip (Row.getD rowEmptyId SEQUENCE_COLUMN ""))).map
          String.mk :=
  (empty_id_match_all_emitted [] rowEmptyId (by decide) (by decide)).2.1

end FastaScript
